import Mathlib

/-!
# A shallow embedding of the libtransmission logging subsystem

This file models `libtransmission/log.cc` (the generic, non-Windows,
non-Android build) as pure Lean functions over an explicit state record,
and proves the testable properties of its specification.

Modelling conventions:

* The mutable globals (`tr_message_level`, `myQueueEnabled`, `myQueue`,
  `myQueueLength`, the flood-suppression map `counts`, and the ambient
  `errno`) are fields of a `LogState` record that every operation threads
  explicitly.  The intrusive singly linked queue (`myQueue` / `myQueueTail`)
  is modelled as a Lean list whose head is the oldest record, which is
  exactly the traversal order of the linked list; `myQueueLength` is kept
  as a separate field, as in the source.
* Side effects on the sink are collected in a list of `Event`s:
  acquiring the shared mutex, writing one line, flushing the stream.
* The sink primitives (`tr_sys_file_write_line` / `tr_sys_file_flush`) are
  system-call wrappers and may leave an arbitrary value in `errno`; that
  value is passed in as the `clobber` parameter.  The wall-clock reads
  (`tr_time`, `tr_logGetTimeStr`) are modelled by the `now` and `timestr`
  parameters: each submission is evaluated at a given instant.
* Machine integers: `errno` and source line numbers are `Int`; counters and
  lengths are `Nat` (they never approach overflow in the source).
-/

/-- Modelled from the spec: the public level enumeration lives in the header
`log.h`, which is not among the sampled sources.  The spec orders the six
levels "lower value = more severe": critical < error < warn < info < debug
< trace. -/
inductive tr_log_level where
  | critical
  | error
  | warn
  | info
  | debug
  | trace
deriving DecidableEq, Repr

/-- The numeric value of a level under the "lower value = more severe"
ordering of the spec. -/
def tr_log_level.toNat : tr_log_level → Nat
  | .critical => 0
  | .error => 1
  | .warn => 2
  | .info => 3
  | .debug => 4
  | .trace => 5

/-- One queued log record (`tr_log_message` in `log.h`); the `next` pointer
of the C struct is modelled by the enclosing list. -/
structure tr_log_message where
  level : tr_log_level
  when : Nat
  message : String
  file : String
  line : Int
  name : String
deriving DecidableEq, Repr

/-- A call-site identity: the `std::pair<char const*, int>` key of the
flood-suppression map (`__FILE__` and `__LINE__` of the submission). -/
abbrev CallSite := String × Int

/-- The process-wide mutable state of `log.cc`, made explicit. -/
structure LogState where
  /-- `static tr_log_level tr_message_level` (the severity threshold). -/
  tr_message_level : tr_log_level
  /-- `static bool myQueueEnabled`. -/
  myQueueEnabled : Bool
  /-- `static tr_log_message* myQueue`, oldest record first. -/
  myQueue : List tr_log_message
  /-- `static int myQueueLength`. -/
  myQueueLength : Nat
  /-- The flood-suppression map `counts` of `tr_logAddMessage`, as an
  association list. -/
  counts : List (CallSite × Nat)
  /-- The ambient `errno` observable by the caller. -/
  errno : Int
deriving DecidableEq, Repr

/-- Observable side effects of a submission: acquiring the shared
`message_mutex_`, writing one line to the sink, flushing the sink. -/
inductive Event where
  | lock
  | writeLine (line : String)
  | flush
deriving DecidableEq, Repr

/-- `tr_logGetLevel`. -/
def tr_logGetLevel (st : LogState) : tr_log_level :=
  st.tr_message_level

/-- `tr_logSetLevel`. -/
def tr_logSetLevel (level : tr_log_level) (st : LogState) : LogState :=
  { st with tr_message_level := level }

/-- `tr_logSetQueueEnabled`. -/
def tr_logSetQueueEnabled (isEnabled : Bool) (st : LogState) : LogState :=
  { st with myQueueEnabled := isEnabled }

/-- `tr_logGetQueueEnabled`. -/
def tr_logGetQueueEnabled (st : LogState) : Bool :=
  st.myQueueEnabled

/-- `tr_logGetQueue`: hands the whole queue to the caller and resets the
queue to empty. -/
def tr_logGetQueue (st : LogState) : List tr_log_message × LogState :=
  (st.myQueue, { st with myQueue := [], myQueueLength := 0 })

/-- Modelled from the spec: `tr_logLevelIsActive` is declared in the header
(not among the sampled sources).  Per the spec, a message at level L is
active iff L is numerically ≤ the configured threshold under the
"lower value = more severe" ordering. -/
def tr_logLevelIsActive (st : LogState) (level : tr_log_level) : Bool :=
  level.toNat ≤ (tr_logGetLevel st).toNat

/-- The flood-suppression cutoff: `MaxRepeat` in `tr_logAddMessage`. -/
def MaxRepeat : Nat := 30

/-- The synthetic notice emitted when a call site reaches `MaxRepeat`. -/
def tooManyMessage : String :=
  "Too many messages like this! I won\x27t log this message anymore this session."

/-- `(*counts)[key]` read: `std::map::operator[]` value-initializes missing
entries to `0`. -/
def mapLookup (m : List (CallSite × Nat)) (k : CallSite) : Nat :=
  match m with
  | [] => 0
  | (k₁, v) :: rest => if k₁ = k then v else mapLookup rest k

/-- `++(*counts)[key]`: increment the entry for `k`, inserting it at count 1
when absent. -/
def mapIncr (m : List (CallSite × Nat)) (k : CallSite) : List (CallSite × Nat) :=
  match m with
  | [] => [(k, 1)]
  | (k₁, v) :: rest => if k₁ = k then (k₁, v + 1) :: rest else (k₁, v) :: mapIncr rest k

/-- `level == TR_LOG_CRITICAL || level == TR_LOG_ERROR || level == TR_LOG_WARN`:
the levels subject to flood suppression. -/
def severeLevel (level : tr_log_level) : Bool :=
  level == .critical || level == .error || level == .warn

/-- `logAddImpl` (the generic build): drop empty messages; under the lock,
either append a record to the bounded queue (evicting the oldest record when
the length exceeds `cap`, the header constant `TR_LOG_MAX_QUEUE_LENGTH`),
or format `[<timestr>] <name>: <msg>` and write-then-flush one line on the
sink.  `clobber` is the `errno` value left behind by the sink or allocation
primitives. -/
def logAddImpl (cap now : Nat) (timestr : String) (clobber : Int)
    (file : String) (line : Int) (level : tr_log_level)
    (name msg : String) (st : LogState) : LogState × List Event :=
  if msg = "" then
    (st, [])
  else if st.myQueueEnabled then
    let newmsg : tr_log_message :=
      { level := level, when := now, message := msg, file := file, line := line, name := name }
    let q := st.myQueue ++ [newmsg]
    let len := st.myQueueLength + 1
    if cap < len then
      ({ st with myQueue := q.tail, myQueueLength := len - 1, errno := clobber },
       [Event.lock])
    else
      ({ st with myQueue := q, myQueueLength := len, errno := clobber },
       [Event.lock])
  else
    let out :=
      if name = "" then "[" ++ timestr ++ "] " ++ msg
      else "[" ++ timestr ++ "] " ++ name ++ ": " ++ msg
    ({ st with errno := clobber }, [Event.lock, Event.writeLine out, Event.flush])

/-- `tr_logAddMessage` (the `string_view` overload): save `errno`; drop
inactive levels without locking; under the lock run the flood suppressor for
severe levels, hand surviving text to `logAddImpl`, emit the one synthetic
notice when a call site reaches `MaxRepeat`; restore `errno` on every path. -/
def tr_logAddMessage (cap now : Nat) (timestr : String) (clobber : Int)
    (file : String) (line : Int) (level : tr_log_level)
    (name msg : String) (st : LogState) : LogState × List Event :=
  let err := st.errno
  if tr_logLevelIsActive st level = false then
    ({ st with errno := err }, [])
  else if severeLevel level then
    let counts₁ := mapIncr st.counts (file, line)
    let count := mapLookup counts₁ (file, line)
    let last_one := count = MaxRepeat
    let st₁ := { st with counts := counts₁ }
    if MaxRepeat < count then
      ({ st₁ with errno := err }, [Event.lock])
    else
      let r₂ := logAddImpl cap now timestr clobber file line level name msg st₁
      if last_one then
        let r₃ := logAddImpl cap now timestr clobber file line level "" tooManyMessage r₂.1
        ({ r₃.1 with errno := err }, Event.lock :: (r₂.2 ++ r₃.2))
      else
        ({ r₂.1 with errno := err }, Event.lock :: r₂.2)
  else
    let r₂ := logAddImpl cap now timestr clobber file line level name msg st
    ({ r₂.1 with errno := err }, Event.lock :: r₂.2)

/-- `tr_logAddMessage` (the variadic overload), after the formatting
primitive has run: `buf_len` is the value `evutil_vsnprintf` returned and
`buf` the (NUL-terminated, possibly truncated) buffer contents.  A
non-positive `buf_len` restores `errno` and drops the message; otherwise the
buffer is handed to the `string_view` overload. -/
def tr_logAddMessage_v (cap now : Nat) (timestr : String) (clobber : Int)
    (file : String) (line : Int) (level : tr_log_level) (name : String)
    (buf_len : Int) (buf : String) (st : LogState) : LogState × List Event :=
  let err := st.errno
  if buf_len ≤ 0 then
    ({ st with errno := err }, [])
  else
    tr_logAddMessage cap now timestr clobber file line level name buf st

/-- Models the external libevent primitive `evutil_vsnprintf` with the C99
`vsnprintf` contract the libevent documentation promises: given the string
the format arguments render to, it returns the full rendered length and
stores into the buffer of size `buflen` at most `buflen - 1` characters plus
a terminating NUL. -/
def evutil_vsnprintf (buflen : Nat) (rendered : String) : Int × String :=
  if rendered.data.length < buflen then
    ((rendered.data.length : Int), rendered)
  else
    ((rendered.data.length : Int), String.mk (rendered.data.take (buflen - 1)))

/-- The size of the stack buffer of the variadic `tr_logAddMessage`
(`std::array<char, 2048>`). -/
def fmtBufSize : Nat := 2048

/-- The variadic `tr_logAddMessage` as a whole, from the string its format
arguments render to. -/
def tr_logAddMessage_fmt (cap now : Nat) (timestr : String) (clobber : Int)
    (file : String) (line : Int) (level : tr_log_level) (name : String)
    (rendered : String) (st : LogState) : LogState × List Event :=
  let r := evutil_vsnprintf fmtBufSize rendered
  tr_logAddMessage_v cap now timestr clobber file line level name r.1 r.2 st

/-- `n` successive calls of the `string_view` overload with the same
arguments (the same call site, level, name and text), earliest call first. -/
def submitN (cap now : Nat) (timestr : String) (clobber : Int)
    (file : String) (line : Int) (level : tr_log_level)
    (name msg : String) : Nat → LogState → LogState × List Event
  | 0, st => (st, [])
  | n + 1, st =>
    let r₁ := submitN cap now timestr clobber file line level name msg n st
    let r₂ := tr_logAddMessage cap now timestr clobber file line level name msg r₁.1
    (r₂.1, r₁.2 ++ r₂.2)

/-- The record `logAddImpl` constructs in queueing mode. -/
def recOf (now : Nat) (file : String) (line : Int) (level : tr_log_level)
    (name msg : String) : tr_log_message :=
  { level := level, when := now, message := msg, file := file, line := line, name := name }

/-- `msgs` successive calls of `logAddImpl` with the same call site, level
and name, earliest text first (events discarded: in queueing mode they are
lock acquisitions only). -/
def appendAll (cap now : Nat) (timestr : String) (clobber : Int)
    (file : String) (line : Int) (level : tr_log_level) (name : String) :
    List String → LogState → LogState
  | [], st => st
  | m :: rest, st =>
    appendAll cap now timestr clobber file line level name rest
      (logAddImpl cap now timestr clobber file line level name m st).1

lemma mapLookup_mapIncr_self (m : List (CallSite × Nat)) (k : CallSite) :
    mapLookup (mapIncr m k) k = mapLookup m k + 1 := by
  induction m with
  | nil => simp [mapLookup, mapIncr]
  | cons hd tl ih =>
    obtain ⟨k₁, v⟩ := hd
    by_cases h : k₁ = k
    · simp [mapLookup, mapIncr, h]
    · simp [mapLookup, mapIncr, h, ih]

lemma logAddImpl_frame (cap now : Nat) (timestr : String) (clobber : Int)
    (file : String) (line : Int) (level : tr_log_level)
    (name msg : String) (st : LogState) :
    (logAddImpl cap now timestr clobber file line level name msg st).1.counts = st.counts ∧
    (logAddImpl cap now timestr clobber file line level name msg st).1.tr_message_level
      = st.tr_message_level ∧
    (logAddImpl cap now timestr clobber file line level name msg st).1.myQueueEnabled
      = st.myQueueEnabled := by
  unfold logAddImpl
  dsimp only
  repeat' split
  all_goals exact ⟨rfl, rfl, rfl⟩

lemma logAddImpl_empty (cap now : Nat) (timestr : String) (clobber : Int)
    (file : String) (line : Int) (level : tr_log_level)
    (name : String) (st : LogState) :
    logAddImpl cap now timestr clobber file line level name "" st = (st, []) := by
  simp [logAddImpl]

lemma logAddImpl_queue_evict (cap now : Nat) (timestr : String) (clobber : Int)
    (file : String) (line : Int) (level : tr_log_level) (name msg : String)
    (st : LogState) (hmsg : msg ≠ "") (hq : st.myQueueEnabled = true)
    (hover : cap < st.myQueueLength + 1) :
    logAddImpl cap now timestr clobber file line level name msg st =
      ({ st with
          myQueue := (st.myQueue ++ [recOf now file line level name msg]).tail,
          myQueueLength := st.myQueueLength,
          errno := clobber }, [Event.lock]) := by
  unfold logAddImpl
  rw [if_neg hmsg, if_pos hq]
  dsimp only
  rw [if_pos hover]
  rfl

lemma logAddImpl_queue_noevict (cap now : Nat) (timestr : String) (clobber : Int)
    (file : String) (line : Int) (level : tr_log_level) (name msg : String)
    (st : LogState) (hmsg : msg ≠ "") (hq : st.myQueueEnabled = true)
    (hfit : st.myQueueLength + 1 ≤ cap) :
    logAddImpl cap now timestr clobber file line level name msg st =
      ({ st with
          myQueue := st.myQueue ++ [recOf now file line level name msg],
          myQueueLength := st.myQueueLength + 1,
          errno := clobber }, [Event.lock]) := by
  unfold logAddImpl
  rw [if_neg hmsg, if_pos hq]
  dsimp only
  rw [if_neg (by omega)]
  rfl

lemma logAddImpl_queue (cap now : Nat) (timestr : String) (clobber : Int)
    (file : String) (line : Int) (level : tr_log_level) (name msg : String)
    (st : LogState) (hmsg : msg ≠ "") (hq : st.myQueueEnabled = true)
    (hlen : st.myQueueLength = st.myQueue.length)
    (hinv : st.myQueue.length ≤ cap) :
    logAddImpl cap now timestr clobber file line level name msg st =
      ({ st with
          myQueue := (st.myQueue ++ [recOf now file line level name msg]).drop
            (st.myQueue.length + 1 - cap),
          myQueueLength := min (st.myQueue.length + 1) cap,
          errno := clobber }, [Event.lock]) := by
  by_cases hover : cap < st.myQueueLength + 1
  · rw [logAddImpl_queue_evict cap now timestr clobber file line level name msg st hmsg hq hover]
    have h₁ : st.myQueue.length + 1 - cap = 1 := by omega
    have h₂ : min (st.myQueue.length + 1) cap = cap := by omega
    have h₃ : st.myQueueLength = cap := by omega
    rw [h₁, h₂, h₃, List.drop_one]
  · rw [logAddImpl_queue_noevict cap now timestr clobber file line level name msg st hmsg hq
      (by omega)]
    have h₁ : st.myQueue.length + 1 - cap = 0 := by omega
    have h₂ : min (st.myQueue.length + 1) cap = st.myQueue.length + 1 := by omega
    rw [h₁, h₂, List.drop_zero, hlen]

lemma drop_of_drop_append {α : Type} (A R : List α) (d₁ d₂ : Nat) (h : d₁ ≤ A.length) :
    ((A.drop d₁ ++ R).drop d₂) = (A ++ R).drop (d₁ + d₂) := by
  have h₁ : (A ++ R).drop d₁ = A.drop d₁ ++ R := by
    rw [List.drop_append_eq_append_drop, Nat.sub_eq_zero_of_le h, List.drop_zero]
  rw [← h₁, List.drop_drop]


/-- The bounded-queue characterization of a run of `logAddImpl` calls in
queueing mode: the queue holds the most recent `cap` of the submitted
records, oldest first; its tracked length matches; the suppression table and
configuration are untouched. -/
lemma appendAll_char (cap now : Nat) (timestr : String) (clobber : Int)
    (file : String) (line : Int) (level : tr_log_level) (name : String)
    (msgs : List String) (st : LogState)
    (hne : ∀ m ∈ msgs, m ≠ "") (hq : st.myQueueEnabled = true)
    (hlen : st.myQueueLength = st.myQueue.length)
    (hinv : st.myQueue.length ≤ cap) :
    (appendAll cap now timestr clobber file line level name msgs st).myQueue =
      (st.myQueue ++ msgs.map (recOf now file line level name)).drop
        (st.myQueue.length + msgs.length - cap) ∧
    (appendAll cap now timestr clobber file line level name msgs st).myQueueLength =
      (appendAll cap now timestr clobber file line level name msgs st).myQueue.length ∧
    (appendAll cap now timestr clobber file line level name msgs st).myQueue.length =
      min (st.myQueue.length + msgs.length) cap ∧
    (appendAll cap now timestr clobber file line level name msgs st).myQueueEnabled = true ∧
    (appendAll cap now timestr clobber file line level name msgs st).counts = st.counts ∧
    (appendAll cap now timestr clobber file line level name msgs st).tr_message_level =
      st.tr_message_level := by
  induction msgs generalizing st with
  | nil =>
    refine ⟨?_, hlen, ?_, hq, rfl, rfl⟩
    · rw [List.map_nil, List.append_nil, List.length_nil,
        (by omega : st.myQueue.length + 0 - cap = 0), List.drop_zero]
      rfl
    · rw [List.length_nil]
      show st.myQueue.length = min (st.myQueue.length + 0) cap
      omega
  | cons m rest ih =>
    have hm : m ≠ "" := hne m (List.mem_cons_self m rest)
    have hrest : ∀ x ∈ rest, x ≠ "" := fun x hx => hne x (List.mem_cons_of_mem m hx)
    have hstep := logAddImpl_queue cap now timestr clobber file line level name m st
      hm hq hlen hinv
    have hq₁queue : (logAddImpl cap now timestr clobber file line level name m st).1.myQueue =
        (st.myQueue ++ [recOf now file line level name m]).drop
          (st.myQueue.length + 1 - cap) := by
      rw [hstep]
    have hq₁len :
        (logAddImpl cap now timestr clobber file line level name m st).1.myQueueLength =
          min (st.myQueue.length + 1) cap := by
      rw [hstep]
    have hdroplen : ((st.myQueue ++ [recOf now file line level name m]).drop
        (st.myQueue.length + 1 - cap)).length = min (st.myQueue.length + 1) cap := by
      simp only [List.length_drop, List.length_append, List.length_singleton]
      omega
    have hq₁ : (logAddImpl cap now timestr clobber file line level name m st).1.myQueueEnabled
        = true := by
      rw [hstep]
      exact hq
    have hlen₁ : (logAddImpl cap now timestr clobber file line level name m st).1.myQueueLength
        = (logAddImpl cap now timestr clobber file line level name m st).1.myQueue.length := by
      rw [hq₁len, hq₁queue, hdroplen]
    have hinv₁ : (logAddImpl cap now timestr clobber file line level name m st).1.myQueue.length
        ≤ cap := by
      rw [hq₁queue, hdroplen]
      omega
    have hcounts₁ := (logAddImpl_frame cap now timestr clobber file line level name m st).1
    have hlevel₁ := (logAddImpl_frame cap now timestr clobber file line level name m st).2.1
    obtain ⟨P₁, P₂, P₃, P₄, P₅, P₆⟩ :=
      ih (logAddImpl cap now timestr clobber file line level name m st).1 hrest hq₁ hlen₁ hinv₁
    have hgoal : appendAll cap now timestr clobber file line level name (m :: rest) st =
        appendAll cap now timestr clobber file line level name rest
          (logAddImpl cap now timestr clobber file line level name m st).1 := rfl
    rw [hgoal]
    have hlist : (st.myQueue ++ [recOf now file line level name m]) ++
        rest.map (recOf now file line level name) =
        st.myQueue ++ (m :: rest).map (recOf now file line level name) := by
      rw [List.map_cons, List.append_assoc, List.singleton_append]
    refine ⟨?_, P₂, ?_, P₄, hcounts₁ ▸ P₅, hlevel₁ ▸ P₆⟩
    · rw [P₁, hq₁queue, hdroplen,
        drop_of_drop_append _ _ _ _ (by
          simp only [List.length_append, List.length_singleton]
          omega),
        hlist,
        (by simp only [List.length_cons]; omega :
          st.myQueue.length + 1 - cap + (min (st.myQueue.length + 1) cap + rest.length - cap)
            = st.myQueue.length + (m :: rest).length - cap)]
    · rw [P₃, hq₁queue, hdroplen,
        (by simp only [List.length_cons]; omega :
          min (min (st.myQueue.length + 1) cap + rest.length) cap
            = min (st.myQueue.length + (m :: rest).length) cap)]

lemma tr_logAddMessage_inactive (cap now : Nat) (timestr : String) (clobber : Int)
    (file : String) (line : Int) (level : tr_log_level) (name msg : String)
    (st : LogState) (hact : tr_logLevelIsActive st level = false) :
    tr_logAddMessage cap now timestr clobber file line level name msg st = (st, []) := by
  unfold tr_logAddMessage
  rw [if_pos hact]

lemma tr_logAddMessage_severe_drop (cap now : Nat) (timestr : String) (clobber : Int)
    (file : String) (line : Int) (level : tr_log_level) (name msg : String)
    (st : LogState) (hsev : severeLevel level = true)
    (hact : tr_logLevelIsActive st level = true)
    (hbig : MaxRepeat < mapLookup st.counts (file, line) + 1) :
    tr_logAddMessage cap now timestr clobber file line level name msg st =
      ({ st with counts := mapIncr st.counts (file, line) }, [Event.lock]) := by
  unfold tr_logAddMessage
  rw [if_neg (by simp [hact]), if_pos hsev]
  dsimp only
  rw [mapLookup_mapIncr_self, if_pos hbig]

lemma tr_logAddMessage_severe_last (cap now : Nat) (timestr : String) (clobber : Int)
    (file : String) (line : Int) (level : tr_log_level) (name msg : String)
    (st : LogState) (hsev : severeLevel level = true)
    (hact : tr_logLevelIsActive st level = true)
    (heq : mapLookup st.counts (file, line) + 1 = MaxRepeat) :
    tr_logAddMessage cap now timestr clobber file line level name msg st =
      ({ (logAddImpl cap now timestr clobber file line level "" tooManyMessage
            (logAddImpl cap now timestr clobber file line level name msg
              { st with counts := mapIncr st.counts (file, line) }).1).1 with
          errno := st.errno },
       Event.lock ::
         ((logAddImpl cap now timestr clobber file line level name msg
            { st with counts := mapIncr st.counts (file, line) }).2 ++
          (logAddImpl cap now timestr clobber file line level "" tooManyMessage
            (logAddImpl cap now timestr clobber file line level name msg
              { st with counts := mapIncr st.counts (file, line) }).1).2)) := by
  unfold tr_logAddMessage
  rw [if_neg (by simp [hact]), if_pos hsev]
  dsimp only
  rw [mapLookup_mapIncr_self, if_neg (by omega), if_pos heq]

lemma tr_logAddMessage_severe_normal (cap now : Nat) (timestr : String) (clobber : Int)
    (file : String) (line : Int) (level : tr_log_level) (name msg : String)
    (st : LogState) (hsev : severeLevel level = true)
    (hact : tr_logLevelIsActive st level = true)
    (hlt : mapLookup st.counts (file, line) + 1 < MaxRepeat) :
    tr_logAddMessage cap now timestr clobber file line level name msg st =
      ({ (logAddImpl cap now timestr clobber file line level name msg
            { st with counts := mapIncr st.counts (file, line) }).1 with
          errno := st.errno },
       Event.lock ::
         (logAddImpl cap now timestr clobber file line level name msg
            { st with counts := mapIncr st.counts (file, line) }).2) := by
  unfold tr_logAddMessage
  rw [if_neg (by simp [hact]), if_pos hsev]
  dsimp only
  rw [mapLookup_mapIncr_self, if_neg (by omega), if_neg (by omega)]

lemma tr_logAddMessage_nonsevere (cap now : Nat) (timestr : String) (clobber : Int)
    (file : String) (line : Int) (level : tr_log_level) (name msg : String)
    (st : LogState) (hsev : severeLevel level = false)
    (hact : tr_logLevelIsActive st level = true) :
    tr_logAddMessage cap now timestr clobber file line level name msg st =
      ({ (logAddImpl cap now timestr clobber file line level name msg st).1 with
          errno := st.errno },
       Event.lock ::
         (logAddImpl cap now timestr clobber file line level name msg st).2) := by
  unfold tr_logAddMessage
  rw [if_neg (by simp [hact]), if_neg (by simp [hsev])]

lemma tooManyMessage_ne : tooManyMessage ≠ "" := by decide

/-- The flood-suppressor characterization of `n` submissions from one call
site at a severe, active level, starting from a fresh site and an empty
enabled queue with room to spare: the site counter reads `n`; the queue
holds the first `min n 30` messages followed, once the 30th was reached, by
the one synthetic notice, which carries the same level and call site and an
empty name. -/
lemma submitN_char (cap now : Nat) (timestr : String) (clobber : Int)
    (file : String) (line : Int) (level : tr_log_level) (name msg : String)
    (st : LogState) (n : Nat)
    (hmsg : msg ≠ "") (hsev : severeLevel level = true) (hcap : 31 ≤ cap)
    (hact : tr_logLevelIsActive st level = true)
    (hq : st.myQueueEnabled = true) (hqueue : st.myQueue = [])
    (hqlen : st.myQueueLength = 0)
    (hcount : mapLookup st.counts (file, line) = 0) :
    mapLookup (submitN cap now timestr clobber file line level name msg n st).1.counts
      (file, line) = n ∧
    (submitN cap now timestr clobber file line level name msg n st).1.myQueue =
      List.replicate (min n MaxRepeat) (recOf now file line level name msg) ++
        (if MaxRepeat ≤ n then [recOf now file line level "" tooManyMessage] else []) ∧
    (submitN cap now timestr clobber file line level name msg n st).1.myQueueLength =
      (submitN cap now timestr clobber file line level name msg n st).1.myQueue.length ∧
    (submitN cap now timestr clobber file line level name msg n st).1.myQueueEnabled = true ∧
    (submitN cap now timestr clobber file line level name msg n st).1.tr_message_level =
      st.tr_message_level ∧
    (submitN cap now timestr clobber file line level name msg n st).1.errno = st.errno := by
  have hM : MaxRepeat = 30 := rfl
  induction n with
  | zero =>
    refine ⟨hcount, ?_, ?_, hq, rfl, rfl⟩
    · show st.myQueue = _
      rw [hqueue, hM]
      simp
    · show st.myQueueLength = st.myQueue.length
      rw [hqlen, hqueue]
      rfl
  | succ n ih =>
    obtain ⟨I₁, I₂, I₃, I₄, I₅, I₆⟩ := ih
    have hunf : (submitN cap now timestr clobber file line level name msg (n + 1) st).1 =
        (tr_logAddMessage cap now timestr clobber file line level name msg
          (submitN cap now timestr clobber file line level name msg n st).1).1 := rfl
    rw [hunf]
    set SN := (submitN cap now timestr clobber file line level name msg n st).1 with hSNdef
    have hactₙ : tr_logLevelIsActive SN level = true := by
      have h : tr_logLevelIsActive SN level = tr_logLevelIsActive st level := by
        unfold tr_logLevelIsActive tr_logGetLevel
        rw [I₅]
      rw [h, hact]
    by_cases hlt : n + 1 < MaxRepeat
    · have hnle : ¬ MaxRepeat ≤ n := by omega
      have hlenSN : SN.myQueueLength = min n MaxRepeat := by
        rw [I₃, I₂, if_neg hnle, List.append_nil, List.length_replicate]
      rw [tr_logAddMessage_severe_normal cap now timestr clobber file line level name msg SN
        hsev hactₙ (by rw [I₁]; exact hlt)]
      rw [logAddImpl_queue_noevict cap now timestr clobber file line level name msg
        { SN with counts := mapIncr SN.counts (file, line) } hmsg I₄
        (by show SN.myQueueLength + 1 ≤ cap; rw [hlenSN, hM] at *; omega)]
      have h₁ : min n MaxRepeat = n := by rw [hM] at *; omega
      have h₂ : min (n + 1) MaxRepeat = n + 1 := by rw [hM] at *; omega
      have hnle' : ¬ MaxRepeat ≤ n + 1 := by rw [hM] at *; omega
      refine ⟨?_, ?_, ?_, I₄, I₅, I₆⟩
      · show mapLookup (mapIncr SN.counts (file, line)) (file, line) = n + 1
        rw [mapLookup_mapIncr_self, I₁]
      · show SN.myQueue ++ [recOf now file line level name msg] = _
        rw [I₂, if_neg hnle, if_neg hnle', h₁, h₂, List.append_nil, List.append_nil,
          List.replicate_succ']
      · show SN.myQueueLength + 1 = (SN.myQueue ++ [recOf now file line level name msg]).length
        rw [List.length_append, List.length_singleton, I₃]
    · by_cases heq : n + 1 = MaxRepeat
      · have hn29 : n = 29 := by rw [hM] at heq; omega
        have hnle : ¬ MaxRepeat ≤ n := by rw [hM] at *; omega
        have hlenSN : SN.myQueueLength = min n MaxRepeat := by
          rw [I₃, I₂, if_neg hnle, List.append_nil, List.length_replicate]
        rw [tr_logAddMessage_severe_last cap now timestr clobber file line level name msg SN
          hsev hactₙ (by rw [I₁]; exact heq)]
        rw [logAddImpl_queue_noevict cap now timestr clobber file line level name msg
          { SN with counts := mapIncr SN.counts (file, line) } hmsg I₄
          (by show SN.myQueueLength + 1 ≤ cap; rw [hlenSN, hM] at *; omega)]
        dsimp only
        rw [logAddImpl_queue_noevict cap now timestr clobber file line level ""
          tooManyMessage
          { tr_message_level := SN.tr_message_level, myQueueEnabled := SN.myQueueEnabled,
            myQueue := SN.myQueue ++ [recOf now file line level name msg],
            myQueueLength := SN.myQueueLength + 1,
            counts := mapIncr SN.counts (file, line), errno := clobber }
          tooManyMessage_ne I₄
          (by show SN.myQueueLength + 1 + 1 ≤ cap; rw [hlenSN, hM] at *; omega)]
        have h₁ : min n MaxRepeat = n := by rw [hM] at *; omega
        have h₂ : min (n + 1) MaxRepeat = n + 1 := by rw [hM] at *; omega
        have hle' : MaxRepeat ≤ n + 1 := by rw [hM] at *; omega
        refine ⟨?_, ?_, ?_, I₄, I₅, I₆⟩
        · show mapLookup (mapIncr SN.counts (file, line)) (file, line) = n + 1
          rw [mapLookup_mapIncr_self, I₁]
        · show (SN.myQueue ++ [recOf now file line level name msg]) ++
              [recOf now file line level "" tooManyMessage] = _
          rw [I₂, if_neg hnle, if_pos hle', h₁, h₂, List.append_nil,
            List.replicate_succ']
        · show SN.myQueueLength + 1 + 1 = ((SN.myQueue ++ [recOf now file line level name msg])
              ++ [recOf now file line level "" tooManyMessage]).length
          rw [List.length_append, List.length_append, List.length_singleton,
            List.length_singleton, I₃]
      · have hge : MaxRepeat ≤ n := by rw [hM] at *; omega
        rw [tr_logAddMessage_severe_drop cap now timestr clobber file line level name msg SN
          hsev hactₙ (by rw [I₁, hM] at *; omega)]
        have h₁ : min n MaxRepeat = MaxRepeat := by rw [hM] at *; omega
        have h₂ : min (n + 1) MaxRepeat = MaxRepeat := by rw [hM] at *; omega
        refine ⟨?_, ?_, ?_, I₄, I₅, I₆⟩
        · show mapLookup (mapIncr SN.counts (file, line)) (file, line) = n + 1
          rw [mapLookup_mapIncr_self, I₁]
        · show SN.myQueue = _
          rw [I₂, if_pos hge, if_pos (by rw [hM] at *; omega : MaxRepeat ≤ n + 1), h₁, h₂]
        · show SN.myQueueLength = SN.myQueue.length
          exact I₃

/-- The flood-suppressor characterization of `n` empty-text submissions from
one fresh call site at a severe, active level with queueing enabled: every
call still bumps the site counter, nothing is ever appended for the empty
text itself, and from the 30th call on the queue holds exactly the one
synthetic notice. -/
lemma submitN_char_empty (cap now : Nat) (timestr : String) (clobber : Int)
    (file : String) (line : Int) (level : tr_log_level) (name : String)
    (st : LogState) (n : Nat)
    (hsev : severeLevel level = true) (hcap : 31 ≤ cap)
    (hact : tr_logLevelIsActive st level = true)
    (hq : st.myQueueEnabled = true) (hqueue : st.myQueue = [])
    (hqlen : st.myQueueLength = 0)
    (hcount : mapLookup st.counts (file, line) = 0) :
    mapLookup (submitN cap now timestr clobber file line level name "" n st).1.counts
      (file, line) = n ∧
    (submitN cap now timestr clobber file line level name "" n st).1.myQueue =
      (if MaxRepeat ≤ n then [recOf now file line level "" tooManyMessage] else []) ∧
    (submitN cap now timestr clobber file line level name "" n st).1.myQueueLength =
      (submitN cap now timestr clobber file line level name "" n st).1.myQueue.length ∧
    (submitN cap now timestr clobber file line level name "" n st).1.myQueueEnabled = true ∧
    (submitN cap now timestr clobber file line level name "" n st).1.tr_message_level =
      st.tr_message_level ∧
    (submitN cap now timestr clobber file line level name "" n st).1.errno = st.errno := by
  have hM : MaxRepeat = 30 := rfl
  induction n with
  | zero =>
    refine ⟨hcount, ?_, ?_, hq, rfl, rfl⟩
    · show st.myQueue = _
      rw [hqueue, hM]
      simp
    · show st.myQueueLength = st.myQueue.length
      rw [hqlen, hqueue]
      rfl
  | succ n ih =>
    obtain ⟨I₁, I₂, I₃, I₄, I₅, I₆⟩ := ih
    have hunf : (submitN cap now timestr clobber file line level name "" (n + 1) st).1 =
        (tr_logAddMessage cap now timestr clobber file line level name ""
          (submitN cap now timestr clobber file line level name "" n st).1).1 := rfl
    rw [hunf]
    set SN := (submitN cap now timestr clobber file line level name "" n st).1 with hSNdef
    have hactₙ : tr_logLevelIsActive SN level = true := by
      have h : tr_logLevelIsActive SN level = tr_logLevelIsActive st level := by
        unfold tr_logLevelIsActive tr_logGetLevel
        rw [I₅]
      rw [h, hact]
    by_cases hlt : n + 1 < MaxRepeat
    · have hnle : ¬ MaxRepeat ≤ n := by omega
      rw [tr_logAddMessage_severe_normal cap now timestr clobber file line level name "" SN
        hsev hactₙ (by rw [I₁]; exact hlt)]
      rw [logAddImpl_empty]
      refine ⟨?_, ?_, ?_, I₄, I₅, I₆⟩
      · show mapLookup (mapIncr SN.counts (file, line)) (file, line) = n + 1
        rw [mapLookup_mapIncr_self, I₁]
      · show SN.myQueue = _
        rw [I₂, if_neg hnle, if_neg (by rw [hM] at *; omega : ¬ MaxRepeat ≤ n + 1)]
      · show SN.myQueueLength = SN.myQueue.length
        exact I₃
    · by_cases heq : n + 1 = MaxRepeat
      · have hnle : ¬ MaxRepeat ≤ n := by rw [hM] at *; omega
        have hqSN : SN.myQueue = [] := by rw [I₂, if_neg hnle]
        have hlenSN : SN.myQueueLength = 0 := by rw [I₃, hqSN]; rfl
        rw [tr_logAddMessage_severe_last cap now timestr clobber file line level name "" SN
          hsev hactₙ (by rw [I₁]; exact heq)]
        rw [logAddImpl_empty]
        dsimp only
        rw [logAddImpl_queue_noevict cap now timestr clobber file line level ""
          tooManyMessage { SN with counts := mapIncr SN.counts (file, line) }
          tooManyMessage_ne I₄
          (by show SN.myQueueLength + 1 ≤ cap; rw [hlenSN, hM] at *; omega)]
        refine ⟨?_, ?_, ?_, I₄, I₅, I₆⟩
        · show mapLookup (mapIncr SN.counts (file, line)) (file, line) = n + 1
          rw [mapLookup_mapIncr_self, I₁]
        · show SN.myQueue ++ [recOf now file line level "" tooManyMessage] = _
          rw [hqSN, if_pos (by rw [hM] at *; omega : MaxRepeat ≤ n + 1), List.nil_append]
        · show SN.myQueueLength + 1 =
            (SN.myQueue ++ [recOf now file line level "" tooManyMessage]).length
          rw [List.length_append, List.length_singleton, I₃]
      · have hge : MaxRepeat ≤ n := by rw [hM] at *; omega
        rw [tr_logAddMessage_severe_drop cap now timestr clobber file line level name "" SN
          hsev hactₙ (by rw [I₁, hM] at *; omega)]
        refine ⟨?_, ?_, ?_, I₄, I₅, I₆⟩
        · show mapLookup (mapIncr SN.counts (file, line)) (file, line) = n + 1
          rw [mapLookup_mapIncr_self, I₁]
        · show SN.myQueue = _
          rw [I₂, if_pos hge, if_pos (by rw [hM] at *; omega : MaxRepeat ≤ n + 1)]
        · show SN.myQueueLength = SN.myQueue.length
          exact I₃

lemma tr_logAddMessage_errno (cap now : Nat) (timestr : String) (clobber : Int)
    (file : String) (line : Int) (level : tr_log_level) (name msg : String)
    (st : LogState) :
    (tr_logAddMessage cap now timestr clobber file line level name msg st).1.errno
      = st.errno := by
  unfold tr_logAddMessage
  dsimp only
  repeat' split
  all_goals rfl

lemma tr_logAddMessage_v_errno (cap now : Nat) (timestr : String) (clobber : Int)
    (file : String) (line : Int) (level : tr_log_level) (name : String)
    (buf_len : Int) (buf : String) (st : LogState) :
    (tr_logAddMessage_v cap now timestr clobber file line level name buf_len buf st).1.errno
      = st.errno := by
  unfold tr_logAddMessage_v
  dsimp only
  split
  · rfl
  · exact tr_logAddMessage_errno cap now timestr clobber file line level name buf st

/-- C3: for both submission entry points — the pre-rendered overload, the
variadic overload after formatting, and their composition with the
formatting primitive — and for every combination of level activity, queue
mode and formatting outcome, the ambient `errno` observed after the call
equals the `errno` observed before it, even though the sink primitives may
clobber it (`clobber`) in between. -/
theorem C3_errno_transparent (cap now : Nat) (timestr : String) (clobber : Int)
    (file : String) (line : Int) (level : tr_log_level) (name msg buf : String)
    (buf_len : Int) (rendered : String) (st : LogState) :
    (tr_logAddMessage cap now timestr clobber file line level name msg st).1.errno
      = st.errno ∧
    (tr_logAddMessage_v cap now timestr clobber file line level name buf_len buf st).1.errno
      = st.errno ∧
    (tr_logAddMessage_fmt cap now timestr clobber file line level name rendered st).1.errno
      = st.errno := by
  refine ⟨tr_logAddMessage_errno cap now timestr clobber file line level name msg st,
    tr_logAddMessage_v_errno cap now timestr clobber file line level name buf_len buf st, ?_⟩
  unfold tr_logAddMessage_fmt
  exact tr_logAddMessage_v_errno cap now timestr clobber file line level name _ _ st

/-- C5: a message at level L passes the severity gate iff L is numerically
≤ the configured threshold under the "lower value = more severe" ordering,
and the gate is monotone: a strictly more severe level passes whenever a
less severe one does. -/
theorem C5_gate_monotone (st : LogState) (L L₁ L₂ : tr_log_level) :
    (tr_logLevelIsActive st L = true ↔ L.toNat ≤ (tr_logGetLevel st).toNat) ∧
    (L₁.toNat < L₂.toNat → tr_logLevelIsActive st L₂ = true →
      tr_logLevelIsActive st L₁ = true) := by
  constructor
  · unfold tr_logLevelIsActive
    exact decide_eq_true_iff
  · intro hlt h₂
    unfold tr_logLevelIsActive at h₂ ⊢
    rw [decide_eq_true_iff] at h₂ ⊢
    omega

/-- Witness for C5: with threshold `info`, the monotonicity part applied at
L₁ = `error` < L₂ = `info` shows `error` passes the gate. -/
theorem C5_gate_monotone_witness :
    tr_logLevelIsActive ⟨tr_log_level.info, false, [], 0, [], 0⟩ tr_log_level.error = true :=
  (C5_gate_monotone ⟨tr_log_level.info, false, [], 0, [], 0⟩ tr_log_level.error
    tr_log_level.error tr_log_level.info).2 (by decide) (by decide)

/-- C7: a submission whose level the severity gate rejects is a complete
no-op through either entry point: the state (queue, suppression table,
`errno`) is returned unchanged and no event — in particular no lock
acquisition — is produced. -/
theorem C7_inactive_noop (cap now : Nat) (timestr : String) (clobber : Int)
    (file : String) (line : Int) (level : tr_log_level) (name msg buf : String)
    (buf_len : Int) (st : LogState)
    (hact : tr_logLevelIsActive st level = false) :
    tr_logAddMessage cap now timestr clobber file line level name msg st = (st, []) ∧
    tr_logAddMessage_v cap now timestr clobber file line level name buf_len buf st =
      (st, []) := by
  refine ⟨tr_logAddMessage_inactive cap now timestr clobber file line level name msg st hact,
    ?_⟩
  unfold tr_logAddMessage_v
  dsimp only
  split
  · rfl
  · exact tr_logAddMessage_inactive cap now timestr clobber file line level name buf st hact

/-- Witness for C7: threshold `error`, one `info` submission: both entry
points return the state unchanged with no events. -/
theorem C7_inactive_noop_witness :
    tr_logAddMessage 3 0 "ts" 9 "f.c" 1 tr_log_level.info "nm" "msg"
      ⟨tr_log_level.error, false, [], 0, [], 5⟩ =
      (⟨tr_log_level.error, false, [], 0, [], 5⟩, []) :=
  (C7_inactive_noop 3 0 "ts" 9 "f.c" 1 tr_log_level.info "nm" "msg" "b" 1
    ⟨tr_log_level.error, false, [], 0, [], 5⟩ (by decide)).1

/-- C8: with queueing disabled, a non-empty message handed to the sink
dispatcher produces exactly one output line, `[<timestamp>] <name>: <text>`
with the name segment and its separator omitted for an empty name, and the
stream is flushed immediately after the write, before the call returns. -/
theorem C8_sink_line (cap now : Nat) (timestr : String) (clobber : Int)
    (file : String) (line : Int) (level : tr_log_level) (name msg : String)
    (st : LogState) (hqd : st.myQueueEnabled = false) (hmsg : msg ≠ "") :
    logAddImpl cap now timestr clobber file line level name msg st =
      ({ st with errno := clobber },
       [Event.lock,
        Event.writeLine (if name = "" then "[" ++ timestr ++ "] " ++ msg
          else "[" ++ timestr ++ "] " ++ name ++ ": " ++ msg),
        Event.flush]) := by
  unfold logAddImpl
  rw [if_neg hmsg, if_neg (by simp [hqd])]

/-- Witness for C8: threshold `warn`, queue disabled, one `error` message
"disk full" named "io": exactly one line `[ts] io: disk full`, then a
flush. -/
theorem C8_sink_line_witness :
    logAddImpl 3 0 "ts" 7 "f.c" 1 tr_log_level.error "io" "disk full"
      ⟨tr_log_level.warn, false, [], 0, [], 42⟩ =
      (⟨tr_log_level.warn, false, [], 0, [], 7⟩,
       [Event.lock, Event.writeLine "[ts] io: disk full", Event.flush]) := by
  have h := C8_sink_line 3 0 "ts" 7 "f.c" 1 tr_log_level.error "io" "disk full"
    ⟨tr_log_level.warn, false, [], 0, [], 42⟩ rfl (by decide)
  simpa using h

/-- C9: messages at the `info`, `debug` or `trace` level are never touched
by the flood suppressor: an active submission at such a level leaves the
suppression table exactly as it was and is handed to the dispatcher
unconditionally, whatever the repeat counters hold. -/
theorem C9_never_suppressed (cap now : Nat) (timestr : String) (clobber : Int)
    (file : String) (line : Int) (level : tr_log_level) (name msg : String)
    (st : LogState)
    (hlev : level = tr_log_level.info ∨ level = tr_log_level.debug ∨
      level = tr_log_level.trace)
    (hact : tr_logLevelIsActive st level = true) :
    (tr_logAddMessage cap now timestr clobber file line level name msg st).1.counts
      = st.counts ∧
    tr_logAddMessage cap now timestr clobber file line level name msg st =
      ({ (logAddImpl cap now timestr clobber file line level name msg st).1 with
          errno := st.errno },
       Event.lock :: (logAddImpl cap now timestr clobber file line level name msg st).2) := by
  have hsev : severeLevel level = false := by
    rcases hlev with h | h | h <;> subst h <;> rfl
  have h := tr_logAddMessage_nonsevere cap now timestr clobber file line level name msg st
    hsev hact
  refine ⟨?_, h⟩
  rw [h]
  exact (logAddImpl_frame cap now timestr clobber file line level name msg st).1

/-- Witness for C9: an `info` message from a call site whose counter already
reads 1000 is still handed through, and the table is unchanged. -/
theorem C9_never_suppressed_witness :
    (tr_logAddMessage 3 0 "ts" 9 "f.c" 1 tr_log_level.info "nm" "msg"
      ⟨tr_log_level.trace, false, [], 0, [(("f.c", 1), 1000)], 5⟩).1.counts =
      (⟨tr_log_level.trace, false, [], 0, [(("f.c", 1), 1000)], 5⟩ : LogState).counts := by
  have h := C9_never_suppressed 3 0 "ts" 9 "f.c" 1 tr_log_level.info "nm" "msg"
    ⟨tr_log_level.trace, false, [], 0, [(("f.c", 1), 1000)], 5⟩ (Or.inl rfl) (by decide)
  exact h.1

/-- C2: with queueing enabled, the queue length stays within the capacity
bound after every prefix of a run of submissions; submitting `cap + K`
records (`K > 0`) and then draining yields exactly `cap` records — the most
recent ones, oldest first, the `K` oldest having been evicted one at a
time. -/
theorem C2_bounded_eviction (cap K now : Nat) (timestr : String) (clobber : Int)
    (file : String) (line : Int) (level : tr_log_level) (name : String)
    (msgs : List String) (st : LogState)
    (hq : st.myQueueEnabled = true) (hqueue : st.myQueue = [])
    (hqlen : st.myQueueLength = 0)
    (hlen : msgs.length = cap + K) (_hK : 0 < K)
    (hne : ∀ m ∈ msgs, m ≠ "") :
    (∀ ms₁ : List String, ms₁ <+: msgs →
      (appendAll cap now timestr clobber file line level name ms₁ st).myQueue.length ≤ cap) ∧
    (tr_logGetQueue (appendAll cap now timestr clobber file line level name msgs st)).1 =
      (msgs.map (recOf now file line level name)).drop K ∧
    ((msgs.map (recOf now file line level name)).drop K).length = cap := by
  refine ⟨?_, ?_, ?_⟩
  · intro ms₁ hpre
    have hne₁ : ∀ m ∈ ms₁, m ≠ "" := fun m hm => hne m (hpre.subset hm)
    have h := appendAll_char cap now timestr clobber file line level name ms₁ st hne₁ hq
      (by rw [hqlen, hqueue]; rfl) (by rw [hqueue]; exact Nat.zero_le cap)
    rw [h.2.2.1]
    omega
  · have h := appendAll_char cap now timestr clobber file line level name msgs st hne hq
      (by rw [hqlen, hqueue]; rfl) (by rw [hqueue]; exact Nat.zero_le cap)
    show (appendAll cap now timestr clobber file line level name msgs st).myQueue = _
    rw [h.1, hqueue, List.nil_append, List.length_nil, Nat.zero_add, hlen,
      Nat.add_sub_cancel_left]
  · rw [List.length_drop, List.length_map, hlen]
    omega

/-- Witness for C2: capacity 3, submissions A, B, C, D; the drain returns
the records for B, C, D in that order. -/
theorem C2_bounded_eviction_witness :
    (tr_logGetQueue (appendAll 3 0 "ts" 9 "f.c" 1 tr_log_level.info "nm"
        ["A", "B", "C", "D"] ⟨tr_log_level.error, true, [], 0, [], 0⟩)).1 =
      [recOf 0 "f.c" 1 tr_log_level.info "nm" "B",
       recOf 0 "f.c" 1 tr_log_level.info "nm" "C",
       recOf 0 "f.c" 1 tr_log_level.info "nm" "D"] := by
  have h := (C2_bounded_eviction 3 1 0 "ts" 9 "f.c" 1 tr_log_level.info "nm"
    ["A", "B", "C", "D"] ⟨tr_log_level.error, true, [], 0, [], 0⟩ rfl rfl rfl rfl
    (by decide) (by decide)).2.1
  rw [h]
  decide

/-- C4: with queueing enabled, submitting `N ≤ cap` records and then
draining yields exactly those records in submission order; the drain resets
the queue to empty (length zero), so an immediate second drain returns
nothing. -/
theorem C4_fifo_drain (cap now : Nat) (timestr : String) (clobber : Int)
    (file : String) (line : Int) (level : tr_log_level) (name : String)
    (msgs : List String) (st : LogState)
    (hq : st.myQueueEnabled = true) (hqueue : st.myQueue = [])
    (hqlen : st.myQueueLength = 0)
    (hle : msgs.length ≤ cap)
    (hne : ∀ m ∈ msgs, m ≠ "") :
    (tr_logGetQueue (appendAll cap now timestr clobber file line level name msgs st)).1 =
      msgs.map (recOf now file line level name) ∧
    (tr_logGetQueue (appendAll cap now timestr clobber file line level name msgs st)).2.myQueue
      = [] ∧
    (tr_logGetQueue (appendAll cap now timestr clobber file line level name msgs
      st)).2.myQueueLength = 0 ∧
    (tr_logGetQueue ((tr_logGetQueue (appendAll cap now timestr clobber file line level name
      msgs st)).2)).1 = [] := by
  refine ⟨?_, rfl, rfl, rfl⟩
  have h := appendAll_char cap now timestr clobber file line level name msgs st hne hq
    (by rw [hqlen, hqueue]; rfl) (by rw [hqueue]; exact Nat.zero_le cap)
  show (appendAll cap now timestr clobber file line level name msgs st).myQueue = _
  rw [h.1, hqueue, List.nil_append, List.length_nil, Nat.zero_add,
    Nat.sub_eq_zero_of_le hle, List.drop_zero]

/-- Witness for C4: capacity 3, submissions A, B; the drain returns exactly
those two records in order and the second drain returns nothing. -/
theorem C4_fifo_drain_witness :
    (tr_logGetQueue (appendAll 3 0 "ts" 9 "f.c" 1 tr_log_level.info "nm"
        ["A", "B"] ⟨tr_log_level.error, true, [], 0, [], 0⟩)).1 =
      [recOf 0 "f.c" 1 tr_log_level.info "nm" "A",
       recOf 0 "f.c" 1 tr_log_level.info "nm" "B"] := by
  have h := (C4_fifo_drain 3 0 "ts" 9 "f.c" 1 tr_log_level.info "nm" ["A", "B"]
    ⟨tr_log_level.error, true, [], 0, [], 0⟩ rfl rfl rfl (by decide) (by decide)).1
  rw [h]
  rfl

set_option maxRecDepth 100000 in
/-- C1 counterexample: after 30 identical `error`-level submissions from
call site ("f.c", 11) with queueing enabled, the synthetic notice is the
last queued record and it carries the *same* call-site identity
("f.c", 11) — not an empty one — alongside its empty name. -/
theorem C1_notice_counterexample :
    ((submitN 100 7 "ts" 9 "f.c" 11 tr_log_level.error "nm" "m" 30
        ⟨tr_log_level.error, true, [], 0, [], 42⟩).1.myQueue.getLast?) =
      some { level := tr_log_level.error, when := 7, message := tooManyMessage,
             file := "f.c", line := 11, name := "" } ∧
    ("f.c" : String) ≠ "" := by
  constructor
  · decide
  · decide

/-- C1 (amended): for a single call site submitting the same non-empty
message at a severe active level `n` times (queueing enabled with room to
spare, fresh site): the site counter reads `n`, exactly the first
`min n 30` messages are delivered, the 30th is followed by the one
synthetic notice — delivered once, at the same level, with an empty name
and the *same* call-site identity — and every later submission is dropped. -/
theorem C1_flood_cutoff (cap now : Nat) (timestr : String) (clobber : Int)
    (file : String) (line : Int) (level : tr_log_level) (name msg : String)
    (st : LogState) (n : Nat)
    (hmsg : msg ≠ "") (hsev : severeLevel level = true) (hcap : 31 ≤ cap)
    (hact : tr_logLevelIsActive st level = true)
    (hq : st.myQueueEnabled = true) (hqueue : st.myQueue = [])
    (hqlen : st.myQueueLength = 0)
    (hcount : mapLookup st.counts (file, line) = 0) :
    mapLookup (submitN cap now timestr clobber file line level name msg n st).1.counts
      (file, line) = n ∧
    (submitN cap now timestr clobber file line level name msg n st).1.myQueue =
      List.replicate (min n MaxRepeat) (recOf now file line level name msg) ++
        (if MaxRepeat ≤ n then [recOf now file line level "" tooManyMessage] else []) := by
  have h := submitN_char cap now timestr clobber file line level name msg st n hmsg hsev
    hcap hact hq hqueue hqlen hcount
  exact ⟨h.1, h.2.1⟩

/-- Witness for C1: 31 `error`-level submissions of "m" from ("f.c", 11):
the queue holds the first 30 records followed by the one notice. -/
theorem C1_flood_cutoff_witness :
    (submitN 100 7 "ts" 9 "f.c" 11 tr_log_level.error "nm" "m" 31
        ⟨tr_log_level.error, true, [], 0, [], 42⟩).1.myQueue =
      List.replicate (min 31 MaxRepeat) (recOf 7 "f.c" 11 tr_log_level.error "nm" "m") ++
        (if MaxRepeat ≤ 31 then [recOf 7 "f.c" 11 tr_log_level.error "" tooManyMessage]
          else []) :=
  (C1_flood_cutoff 100 7 "ts" 9 "f.c" 11 tr_log_level.error "nm" "m"
    ⟨tr_log_level.error, true, [], 0, [], 42⟩ 31 (by decide) rfl (by decide) (by decide)
    rfl rfl rfl rfl).2

/-- C10: empty-text submissions produce no record and no output line even
when the level is active, but for severe levels each one still bumps the
call-site counter: after 30 empty submissions from a fresh site the one
synthetic notice is emitted (the only queued record) and the site is
silenced for good. -/
theorem C10_empty_still_counted (cap now : Nat) (timestr : String) (clobber : Int)
    (file : String) (line : Int) (level : tr_log_level) (name : String)
    (st : LogState) (n : Nat)
    (hsev : severeLevel level = true) (hcap : 31 ≤ cap)
    (hact : tr_logLevelIsActive st level = true)
    (hq : st.myQueueEnabled = true) (hqueue : st.myQueue = [])
    (hqlen : st.myQueueLength = 0)
    (hcount : mapLookup st.counts (file, line) = 0) :
    mapLookup (submitN cap now timestr clobber file line level name "" n st).1.counts
      (file, line) = n ∧
    (submitN cap now timestr clobber file line level name "" n st).1.myQueue =
      (if MaxRepeat ≤ n then [recOf now file line level "" tooManyMessage] else []) ∧
    (∀ st₁ : LogState, tr_logLevelIsActive st₁ level = true →
      mapLookup st₁.counts (file, line) + 1 < MaxRepeat →
      tr_logAddMessage cap now timestr clobber file line level name "" st₁ =
        ({ st₁ with counts := mapIncr st₁.counts (file, line) }, [Event.lock])) := by
  have h := submitN_char_empty cap now timestr clobber file line level name st n hsev
    hcap hact hq hqueue hqlen hcount
  refine ⟨h.1, h.2.1, ?_⟩
  intro st₁ hact₁ hlt
  rw [tr_logAddMessage_severe_normal cap now timestr clobber file line level name "" st₁
    hsev hact₁ hlt]
  rw [logAddImpl_empty]

/-- Witness for C10: 30 empty `warn`-level submissions from ("f.c", 11):
the counter reads 30, the queue holds exactly the one notice, and a single
empty submission below the cutoff only bumps the counter. -/
theorem C10_empty_still_counted_witness :
    mapLookup (submitN 100 7 "ts" 9 "f.c" 11 tr_log_level.warn "nm" "" 30
        ⟨tr_log_level.warn, true, [], 0, [], 42⟩).1.counts ("f.c", 11) = 30 ∧
    (submitN 100 7 "ts" 9 "f.c" 11 tr_log_level.warn "nm" "" 30
        ⟨tr_log_level.warn, true, [], 0, [], 42⟩).1.myQueue =
      (if MaxRepeat ≤ 30 then [recOf 7 "f.c" 11 tr_log_level.warn "" tooManyMessage]
        else []) ∧
    tr_logAddMessage 100 7 "ts" 9 "f.c" 11 tr_log_level.warn "nm" ""
        ⟨tr_log_level.warn, true, [], 0, [], 42⟩ =
      ({ (⟨tr_log_level.warn, true, [], 0, [], 42⟩ : LogState) with
          counts := mapIncr [] ("f.c", 11) }, [Event.lock]) := by
  have h := C10_empty_still_counted 100 7 "ts" 9 "f.c" 11 tr_log_level.warn "nm"
    ⟨tr_log_level.warn, true, [], 0, [], 42⟩ 30 rfl (by decide) (by decide) rfl rfl rfl rfl
  exact ⟨h.1, h.2.1, h.2.2 ⟨tr_log_level.warn, true, [], 0, [], 42⟩ (by decide) (by decide)⟩

/-- C6 (amended): the variadic entry point drops the message silently —
no event, state returned unchanged — exactly when the formatting primitive
reports an error or a zero/negative rendered length; when the primitive
succeeds (positive length, as it does for over-length renderings, which it
truncates to the 2048-byte buffer) the buffer contents, truncated text
included, are submitted to the ordinary pipeline. -/
theorem C6_format_drop (cap now : Nat) (timestr : String) (clobber : Int)
    (file : String) (line : Int) (level : tr_log_level) (name : String)
    (buf_len : Int) (buf : String) (st : LogState) :
    (buf_len ≤ 0 →
      tr_logAddMessage_v cap now timestr clobber file line level name buf_len buf st
        = (st, [])) ∧
    (0 < buf_len →
      tr_logAddMessage_v cap now timestr clobber file line level name buf_len buf st
        = tr_logAddMessage cap now timestr clobber file line level name buf st) := by
  constructor
  · intro h
    unfold tr_logAddMessage_v
    dsimp only
    rw [if_pos h]
  · intro h
    unfold tr_logAddMessage_v
    dsimp only
    rw [if_neg (by omega)]

/-- Witness for C6: a reported length of -1 drops the message with no
state change and no event. -/
theorem C6_format_drop_witness :
    tr_logAddMessage_v 3 0 "ts" 9 "f.c" 1 tr_log_level.error "nm" (-1) "text"
      ⟨tr_log_level.error, false, [], 0, [], 5⟩ =
      (⟨tr_log_level.error, false, [], 0, [], 5⟩, []) :=
  (C6_format_drop 3 0 "ts" 9 "f.c" 1 tr_log_level.error "nm" (-1) "text"
    ⟨tr_log_level.error, false, [], 0, [], 5⟩).1 (by decide)

set_option maxRecDepth 40000 in
/-- C6 counterexample: a 2100-character rendering exceeds the 2048-byte
buffer, yet the message is not dropped: the formatting primitive returns
the positive would-be length 2100, and the text truncated to 2047
characters is submitted and queued. -/
theorem C6_overlength_counterexample :
    fmtBufSize < (String.mk (List.replicate 2100 'a')).data.length ∧
    (tr_logAddMessage_fmt 100 7 "ts" 9 "f.c" 11 tr_log_level.error "nm"
        (String.mk (List.replicate 2100 'a'))
        ⟨tr_log_level.error, true, [], 0, [], 42⟩).1.myQueue =
      [recOf 7 "f.c" 11 tr_log_level.error "nm" (String.mk (List.replicate 2047 'a'))] := by
  have hlen : (String.mk (List.replicate 2100 'a')).data.length = 2100 :=
    List.length_replicate 2100 'a'
  constructor
  · rw [hlen]
    decide
  · have hbuf : String.mk (List.replicate 2047 'a') ≠ "" := by decide
    have hv : evutil_vsnprintf fmtBufSize (String.mk (List.replicate 2100 'a')) =
        ((2100 : Int), String.mk (List.replicate 2047 'a')) := by
      unfold evutil_vsnprintf
      rw [if_neg (by rw [hlen]; decide), hlen, (by decide : fmtBufSize - 1 = 2047)]
      show ((2100 : Int), String.mk ((List.replicate 2100 'a').take 2047)) = _
      rw [List.take_replicate, (by decide : min 2047 2100 = 2047)]
    unfold tr_logAddMessage_fmt
    rw [hv]
    dsimp only
    unfold tr_logAddMessage_v
    dsimp only
    rw [if_neg (by decide : ¬ (2100 : Int) ≤ 0)]
    rw [tr_logAddMessage_severe_normal 100 7 "ts" 9 "f.c" 11 tr_log_level.error "nm"
      (String.mk (List.replicate 2047 'a')) ⟨tr_log_level.error, true, [], 0, [], 42⟩
      rfl (by decide) (by decide)]
    rw [logAddImpl_queue_noevict 100 7 "ts" 9 "f.c" 11 tr_log_level.error "nm"
      (String.mk (List.replicate 2047 'a'))
      { (⟨tr_log_level.error, true, [], 0, [], 42⟩ : LogState) with
        counts := mapIncr (⟨tr_log_level.error, true, [], 0, [], 42⟩ : LogState).counts
          ("f.c", 11) }
      hbuf rfl (by decide)]
    rfl
